import Mathlib

/-!
Verification of the nydus image builder and blob-metadata subsystem.

This file gives a shallow embedding, in Lean 4, of the parts of the
repository needed to settle the frozen claims C1..C10:

* `src/storage/src/meta/mod.rs` — the blob chunk-metadata codec and the
  range-to-chunk queries (`BlobMetaState::get_chunk_index_nocheck`,
  `BlobMetaInfo::get_chunks_uncompressed`, `BlobMetaInfo::get_chunks_compressed`,
  `BlobMetaInfo::add_more_chunks`, `BlobMetaInfo::new`, `validate_chunk`,
  `round_up_4k`, `BlobMetaChunkArray::add_v1`).
* `src/src/bin/nydus-image/node.rs` — `Node::dump_blob`, `Node::dump_bootstrap`
  (its chunk-count guard), `Node::chunk_count`, `Node::whiteout_type` and the
  overlayfs whiteout helpers.
* `src/src/bin/nydus-image/core/context.rs` — `BlobBufferWriter::release`.

Machine integers (`u32`, `u64`) are embedded as `Nat` with explicit
bounds/wrap-around where the source relies on them; `Result<T>` becomes
`Except String T`; file-system and I/O effects are made explicit (an
association list for a directory of files, an explicit operation trace
for `BlobMetaInfo::new`).  Rust `while` loops become fuel-indexed
recursions where the fuel is always at least the number of iterations the
source loop can perform, so the embedded function and the source agree on
every input.
-/

/-- Largest value of a Rust `u64`. -/
def u64Max : Nat := 2 ^ 64 - 1

/-- `round_up_4k` from `src/storage/src/meta/mod.rs`:
`(val + 0xfff) & !0xfff`, written arithmetically (identical on `Nat`). -/
def round_up_4k (val : Nat) : Nat := (val + 0xfff) / 0x1000 * 0x1000

/-- On-disk chunk record: two little-endian `u64` words
(`src/storage/src/meta/chunk_info_v1.rs`, struct `BlobChunkInfoV1Ondisk`). -/
structure BlobChunkInfoV1Ondisk where
  uncomp_info : Nat
  comp_info : Nat
deriving DecidableEq

/-- The all-zero chunk record (`BlobChunkInfoV1Ondisk::default()`). -/
def chunkDefault : BlobChunkInfoV1Ondisk := { uncomp_info := 0, comp_info := 0 }

namespace BlobChunkInfoV1Ondisk

/-!
Modelled from the spec: the accessor bodies live in
`src/storage/src/meta/chunk_info_v1.rs`, which is not part of the provided
sources (only the trait `BlobMetaChunkInfo` in `mod.rs` and the unit tests
are).  The bit layout is the one described in spec §3 ("Chunk record"),
refined to the exact bit positions pinned by the unit tests
`test_new_chunk_on_disk`, `test_get_chunk_index_with_hole` and
`test_get_chunks` in `src/storage/src/meta/mod.rs`:

* `comp_info`  — bits [0,40): compressed offset; bits [44,64): low 20 bits
  of (compressed size − 1); bits [40,44): high 4 bits of (compressed size − 1).
* `uncomp_info` — bits [12,44): uncompressed offset divided by 4096 (i.e. the
  4 KiB-aligned offset stored in place); bits [44,64): low 20 bits of
  (uncompressed size − 1); bits [8,12): high 4 bits of (uncompressed size − 1);
  bits [0,8): reserved.

Setters clear their field's mask and or-in the masked argument; sizes are
stored minus one after a `u32` cast.  All shifts/masks are written with
`/ %` arithmetic on `Nat`, which agrees with the masked `u64` operations.
-/

/-- Get compressed offset: `comp_info & 0xff_ffff_ffff`. -/
def compressed_offset (c : BlobChunkInfoV1Ondisk) : Nat :=
  c.comp_info % 2 ^ 40

/-- Set compressed offset: clear bits [0,40) and or-in `offset & 0xff_ffff_ffff`. -/
def set_compressed_offset (c : BlobChunkInfoV1Ondisk) (offset : Nat) : BlobChunkInfoV1Ondisk :=
  { c with comp_info := c.comp_info / 2 ^ 40 * 2 ^ 40 + offset % 2 ^ 40 }

/-- Get compressed size: recombine the 20-bit low part (bits [44,64)) and
4-bit high part (bits [40,44)) of the stored (size − 1), plus one. -/
def compressed_size (c : BlobChunkInfoV1Ondisk) : Nat :=
  c.comp_info / 2 ^ 44 % 2 ^ 20 + c.comp_info / 2 ^ 40 % 2 ^ 4 * 2 ^ 20 + 1

/-- Set compressed size: store `(size − 1)` (after the `u32` cast, which wraps
for `size = 0`) split into its low 20 bits at [44,64) and high 4 bits at [40,44),
keeping the offset bits [0,40). -/
def set_compressed_size (c : BlobChunkInfoV1Ondisk) (size : Nat) : BlobChunkInfoV1Ondisk :=
  let v := (size + (2 ^ 32 - 1)) % 2 ^ 32
  { c with comp_info := c.comp_info % 2 ^ 40 + v / 2 ^ 20 % 2 ^ 4 * 2 ^ 40 + v % 2 ^ 20 * 2 ^ 44 }

/-- `compressed_end` (trait default in `mod.rs`):
`compressed_offset() + compressed_size() as u64`. -/
def compressed_end (c : BlobChunkInfoV1Ondisk) : Nat :=
  c.compressed_offset + c.compressed_size

/-- Get uncompressed offset: `uncomp_info & 0xff_ffff_f000`
(the 4 KiB-aligned offset stored in place in bits [12,44)). -/
def uncompressed_offset (c : BlobChunkInfoV1Ondisk) : Nat :=
  c.uncomp_info / 2 ^ 12 % 2 ^ 32 * 2 ^ 12

/-- Set uncompressed offset: clear bits [12,44) and or-in
`offset & 0xff_ffff_f000`. -/
def set_uncompressed_offset (c : BlobChunkInfoV1Ondisk) (offset : Nat) : BlobChunkInfoV1Ondisk :=
  { c with uncomp_info :=
      c.uncomp_info % 2 ^ 12 + c.uncomp_info / 2 ^ 44 * 2 ^ 44 + offset / 2 ^ 12 % 2 ^ 32 * 2 ^ 12 }

/-- Get uncompressed size: low 20 bits at [44,64), high 4 bits at [8,12),
plus one. -/
def uncompressed_size (c : BlobChunkInfoV1Ondisk) : Nat :=
  c.uncomp_info / 2 ^ 44 % 2 ^ 20 + c.uncomp_info / 2 ^ 8 % 2 ^ 4 * 2 ^ 20 + 1

/-- Set uncompressed size: store `(size − 1)` (after the `u32` cast) split into
low 20 bits at [44,64) and high 4 bits at [8,12), keeping bits [0,8) and the
offset bits [12,44). -/
def set_uncompressed_size (c : BlobChunkInfoV1Ondisk) (size : Nat) : BlobChunkInfoV1Ondisk :=
  let v := (size + (2 ^ 32 - 1)) % 2 ^ 32
  { c with uncomp_info :=
      c.uncomp_info % 2 ^ 8 + c.uncomp_info / 2 ^ 12 % 2 ^ 32 * 2 ^ 12
        + v / 2 ^ 20 % 2 ^ 4 * 2 ^ 8 + v % 2 ^ 20 * 2 ^ 44 }

/-- `uncompressed_end` (trait default in `mod.rs`):
`uncompressed_offset() + uncompressed_size() as u64`. -/
def uncompressed_end (c : BlobChunkInfoV1Ondisk) : Nat :=
  c.uncompressed_offset + c.uncompressed_size

/-- `aligned_uncompressed_end` (trait default in `mod.rs`):
`round_up_4k(uncompressed_end())`. -/
def aligned_uncompressed_end (c : BlobChunkInfoV1Ondisk) : Nat :=
  round_up_4k c.uncompressed_end

/-- `is_compressed`: a V1 chunk is compressed iff its compressed and
uncompressed sizes differ. -/
def is_compressed (c : BlobChunkInfoV1Ondisk) : Bool :=
  c.compressed_size ≠ c.uncompressed_size

end BlobChunkInfoV1Ondisk

/-- `BlobMetaChunkArray::add_v1` from `src/storage/src/meta/mod.rs` (lines
677-694): build a fresh chunk record by the four setter calls, in source
order, starting from `BlobChunkInfoV1Ondisk::default()`. -/
def add_v1 (compressed_offset : Nat) (compressed_size : Nat)
    (uncompressed_offset : Nat) (uncompressed_size : Nat) : BlobChunkInfoV1Ondisk :=
  (((chunkDefault.set_compressed_offset compressed_offset).set_compressed_size
      compressed_size).set_uncompressed_offset
      uncompressed_offset).set_uncompressed_size uncompressed_size

/-- `BlobMetaState` from `src/storage/src/meta/mod.rs` (lines 580-593).
The memory-mapped `chunks` array is embedded as a list; `_filemap` carries
no observable state and is dropped. -/
structure BlobMetaState where
  blob_index : Nat
  compressed_size : Nat
  uncompressed_size : Nat
  chunk_count : Nat
  chunks : List BlobChunkInfoV1Ondisk
  is_stargz : Bool

/-- `BlobMetaInfo::validate_chunk` (lines 497-514): for a stargz blob the
compressed bound is not checked; the uncompressed bound always is. -/
def validate_chunk (s : BlobMetaState) (entry : BlobChunkInfoV1Ondisk) : Except String Unit :=
  if (s.is_stargz = false ∧ entry.compressed_end > s.compressed_size)
      ∨ entry.uncompressed_end > s.uncompressed_size then
    .error "invalid chunk"
  else
    .ok ()

/-- Loop of `BlobMetaState::get_chunk_index_nocheck` (lines 596-635).
Arguments after the address/coordinate flag are: fuel, `left`, `right`,
`size`.  The source keeps `size = right - left` in sync at every loop head
(it is initialised to `chunk_count` together with `right` and re-computed at
the end of each iteration); the fuel only runs out after the loop would have
exited, because `size` strictly decreases every iteration.  Out-of-bounds
access (`get_unchecked`) is embedded as `List.getD` with the zero record. -/
def get_chunk_index_loop (s : BlobMetaState) (addr : Nat) (compressed : Bool) :
    Nat → Nat → Nat → Nat → Except String Nat
  | 0, _, _, _ => .error "chunk index out of range"
  | fuel + 1, left, right, size =>
    if left < right then
      let mid := left + size / 2
      let entry := s.chunks.getD mid chunkDefault
      let start := if compressed then entry.compressed_offset else entry.uncompressed_offset
      let stop := if compressed then entry.compressed_end else entry.uncompressed_end
      if start > addr then
        get_chunk_index_loop s addr compressed fuel left mid (mid - left)
      else if stop ≤ addr then
        get_chunk_index_loop s addr compressed fuel (mid + 1) right (right - (mid + 1))
      else
        .ok mid
    else
      .error "chunk index out of range"

/-- `BlobMetaState::get_chunk_index_nocheck` (lines 596-635): branchless
binary search over the chunk array in compressed or uncompressed
coordinates. -/
def get_chunk_index_nocheck (s : BlobMetaState) (addr : Nat) (compressed : Bool) :
    Except String Nat :=
  get_chunk_index_loop s addr compressed (s.chunk_count + 1) 0 s.chunk_count s.chunk_count

/-- Decide whether an `Except` value is `ok`. -/
def exceptIsOk {ε α : Type} : Except ε α → Bool
  | .ok _ => true
  | .error _ => false

/-- Walk loop of `BlobMetaInfo::get_chunks_uncompressed` (lines 345-370):
`while index + 1 < infos.len()`.  Arguments after `endv`/`batch_end` are
fuel, `index`, `last_end`, `vec`; the function is always called with fuel at
least the number of remaining iterations (`s.chunks.length` suffices since
`index` strictly increases), so fuel exhaustion coincides with loop exit
(the `entry not found` error of lines 372-376). -/
def get_chunks_uncompressed_loop (s : BlobMetaState) (endv batch_end : Nat) :
    Nat → Nat → Nat → List Nat → Except String (List Nat)
  | 0, _, _, _ => .error "entry not found"
  | fuel + 1, index, last_end, vec =>
    if index + 1 < s.chunks.length then
      let index := index + 1
      let entry := s.chunks.getD index chunkDefault
      match validate_chunk s entry with
      | .error e => .error e
      | .ok _ =>
        -- For stargz chunks, this check is disabled.
        if s.is_stargz = false ∧ entry.uncompressed_offset ≠ last_end then
          .error "mismatch uncompressed"
        -- Avoid read amplify if next chunk is too big.
        else if last_end ≥ endv ∧ entry.aligned_uncompressed_end > batch_end then
          .ok vec
        else
          let vec := vec ++ [index]
          let last_end := entry.aligned_uncompressed_end
          if last_end ≥ batch_end then
            .ok vec
          else
            get_chunks_uncompressed_loop s endv batch_end fuel index last_end vec
    else
      .error "entry not found"

/-- `BlobMetaInfo::get_chunks_uncompressed` (lines 303-378).  The returned
`Vec<Arc<dyn BlobChunkInfo>>` of `BlobMetaChunk`s is embedded as the list of
their chunk indices (a `BlobMetaChunk` is exactly an index into the shared
state).  `checked_add` on `u64` is made explicit against `u64Max`. -/
def get_chunks_uncompressed (s : BlobMetaState) (start size batch_size : Nat) :
    Except String (List Nat) :=
  if start + size > u64Max then
    .error "invalid range"
  else
    let endv := start + size
    if endv > s.uncompressed_size then
      .error "get_chunks_uncompressed: end bigger than uncompressed_size"
    else
      let batch_end :=
        if batch_size ≤ size then endv
        else min (if start + batch_size > u64Max then endv else start + batch_size)
          s.uncompressed_size
      match get_chunk_index_nocheck s start false with
      | .error e => .error e
      | .ok index =>
        let entry := s.chunks.getD index chunkDefault
        match validate_chunk s entry with
        | .error e => .error e
        | .ok _ =>
          let vec := [index]
          let last_end := entry.aligned_uncompressed_end
          if last_end ≥ batch_end then
            .ok vec
          else
            get_chunks_uncompressed_loop s endv batch_end s.chunks.length index last_end vec

/-- Walk loop of `BlobMetaInfo::get_chunks_compressed` (lines 422-440).
Unlike the uncompressed walk, the contiguity check
`entry.compressed_offset() != last_end` has no stargz exemption. -/
def get_chunks_compressed_loop (s : BlobMetaState) (endv batch_end : Nat) :
    Nat → Nat → Nat → List Nat → Except String (List Nat)
  | 0, _, _, _ => .error "entry not found"
  | fuel + 1, index, last_end, vec =>
    if index + 1 < s.chunks.length then
      let index := index + 1
      let entry := s.chunks.getD index chunkDefault
      match validate_chunk s entry with
      | .error e => .error e
      | .ok _ =>
        if entry.compressed_offset ≠ last_end then
          .error "mismatch compressed"
        -- Avoid read amplify if next chunk is too big.
        else if last_end ≥ endv ∧ entry.compressed_end > batch_end then
          .ok vec
        else
          let vec := vec ++ [index]
          let last_end := entry.compressed_end
          if last_end ≥ batch_end then
            .ok vec
          else
            get_chunks_compressed_loop s endv batch_end fuel index last_end vec
    else
      .error "entry not found"

/-- `BlobMetaInfo::get_chunks_compressed` (lines 387-444). -/
def get_chunks_compressed (s : BlobMetaState) (start size batch_size : Nat) :
    Except String (List Nat) :=
  if start + size > u64Max then
    .error "invalid range"
  else
    let endv := start + size
    if endv > s.compressed_size then
      .error "get_chunks_compressed: end bigger than compressed_size"
    else
      let batch_end :=
        if batch_size ≤ size then endv
        else min (if start + batch_size > u64Max then endv else start + batch_size)
          s.compressed_size
      match get_chunk_index_nocheck s start true with
      | .error e => .error e
      | .ok index =>
        let entry := s.chunks.getD index chunkDefault
        match validate_chunk s entry with
        | .error e => .error e
        | .ok _ =>
          let vec := [index]
          let last_end := entry.compressed_end
          if last_end ≥ batch_end then
            .ok vec
          else
            get_chunks_compressed_loop s endv batch_end s.chunks.length index last_end vec

/-- Walk loop of `BlobMetaInfo::add_more_chunks` (lines 473-490): appends
contiguous chunks, stopping (without error) on a validation failure, a gap,
a chunk past `batch_end`, or the end of the array. -/
def add_more_chunks_loop (s : BlobMetaState) (batch_end : Nat) :
    Nat → Nat → Nat → List Nat → List Nat
  | 0, _, _, vec => vec
  | fuel + 1, index, last_end, vec =>
    if index + 1 < s.chunks.length then
      let index := index + 1
      let entry := s.chunks.getD index chunkDefault
      if exceptIsOk (validate_chunk s entry) = false ∨ entry.compressed_offset ≠ last_end then
        vec
      -- Avoid read amplification if next chunk is too big.
      else if entry.compressed_end > batch_end then
        vec
      else
        let vec := vec ++ [index]
        let last_end := entry.compressed_end
        if last_end ≥ batch_end then
          vec
        else
          add_more_chunks_loop s batch_end fuel index last_end vec
    else
      vec

/-- `BlobMetaInfo::add_more_chunks` (lines 446-495).  The incoming `chunks`
slice is embedded as its list of chunk indices; `chunks[chunks.len() - 1].id()`
(which panics on an empty slice in Rust) is embedded with `getLastD 0` and the
claims only quantify over non-empty lists. -/
def add_more_chunks (s : BlobMetaState) (chunks : List Nat) (max_size : Nat) :
    Option (List Nat) :=
  let index := chunks.getLastD 0
  let entry := s.chunks.getD index chunkDefault
  if exceptIsOk (validate_chunk s entry) = false then
    none
  else
    let endv := entry.compressed_end
    if endv > s.compressed_size then
      none
    else
      let batch_end :=
        min (if endv + max_size > u64Max then endv else endv + max_size) s.compressed_size
      if batch_end ≤ endv then
        none
      else
        some (add_more_chunks_loop s batch_end s.chunks.length index endv chunks)

/-! ## `src/src/bin/nydus-image/node.rs` -/

/-- `RAFS_DEFAULT_BLOCK_SIZE` from the `rafs` crate (not under the provided
sources).  Modelled from the spec: §4.4 fixes the default chunk size used by
the per-file chunker to 1 MiB. -/
def RAFS_DEFAULT_BLOCK_SIZE : Nat := 0x100000

/-- `div_round_up` from the `nydus_utils` crate (not under the provided
sources).  Modelled from the spec: §4.6 and §8 describe the chunk count as
`ceil(size / CHUNK_SIZE)`. -/
def div_round_up (n : Nat) (d : Nat) : Nat := (n + d - 1) / d

/-- `Overlay` (node.rs lines 72-79). -/
inductive Overlay where
  | Lower
  | UpperAddition
  | UpperOpaque
  | UpperRemoval
  | UpperModification
deriving DecidableEq

/-- `WhiteoutSpec` (node.rs lines 51-57). -/
inductive WhiteoutSpec where
  | Oci
  | Overlayfs
deriving DecidableEq

/-- `WhiteoutType` (node.rs lines 37-43). -/
inductive WhiteoutType where
  | OCIOpaque
  | OCIRemoval
  | OverlayFSOpaque
  | OverlayFSRemoval
deriving DecidableEq

/-- `OCISPEC_WHITEOUT_PREFIX` (node.rs line 34). -/
def OCISPEC_WHITEOUT_PREFIX : String := ".wh."

/-- `OCISPEC_WHITEOUT_OPAQUE` (node.rs line 35). -/
def OCISPEC_WHITEOUT_OPAQUE : String := ".wh..wh..opq"

/-- `OndiskChunkInfo` from the `rafs` on-disk layout, with exactly the fields
`Node::dump_blob` reads or writes.  The digest `block_id` is embedded as an
opaque `Nat` produced by the digest oracle; `flags` keeps only the
`RafsChunkFlags::COMPRESSED` bit (the sole flag dump_blob touches), with 1
standing for the set bit. -/
structure OndiskChunkInfo where
  block_id : Nat
  blob_index : Nat
  flags : Nat
  compress_size : Nat
  decompress_size : Nat
  compress_offset : Nat
  decompress_offset : Nat
  file_offset : Nat
deriving DecidableEq

/-- `OndiskChunkInfo::new()`: the all-zero record. -/
def ondiskChunkNew : OndiskChunkInfo :=
  { block_id := 0, blob_index := 0, flags := 0, compress_size := 0,
    decompress_size := 0, compress_offset := 0, decompress_offset := 0, file_offset := 0 }

/-- The builder-side `Node`, with the fields read by `dump_blob`,
`dump_bootstrap`'s chunk guard, `chunk_count` and `whiteout_type`.
`name` is the single path component returned by `Node::name()`; xattr values
are kept as strings (`is_overlayfs_opaque` only compares them with "y"). -/
structure Node where
  overlay : Overlay
  name : String
  i_mode : Nat
  i_size : Nat
  i_child_count : Nat
  rdev : Nat
  xattrs : List (String × String)

namespace Node

/-- The file-type nibble `i_mode & S_IFMT` (Linux: `S_IFMT = 0o170000`),
expressed arithmetically: `i_mode / 0x1000 % 0x10 * 0x1000`. -/
def mode_fmt (n : Node) : Nat := n.i_mode / 0x1000 % 0x10 * 0x1000

/-- `Node::is_dir` (node.rs lines 391-393): `i_mode & S_IFMT == S_IFDIR`. -/
def is_dir (n : Node) : Bool := n.mode_fmt = 0o040000

/-- `Node::is_symlink` (lines 395-397): `i_mode & S_IFMT == S_IFLNK`. -/
def is_symlink (n : Node) : Bool := n.mode_fmt = 0o120000

/-- `Node::is_reg` (lines 399-401): `i_mode & S_IFMT == S_IFREG`. -/
def is_reg (n : Node) : Bool := n.mode_fmt = 0o100000

/-- `i_mode & S_IFMT == S_IFCHR` as used by `is_overlayfs_whiteout`. -/
def is_chr (n : Node) : Bool := n.mode_fmt = 0o020000

/-- `Node::chunk_count` (lines 407-412). -/
def chunk_count (n : Node) : Nat :=
  if n.is_reg = false then 0
  else div_round_up n.i_size RAFS_DEFAULT_BLOCK_SIZE

end Node

/-- `gnu_dev_major` of glibc, behind `nix::sys::stat::major`:
`((dev >> 8) & 0xfff) | ((dev >> 32) & ~0xfff)`. -/
def dev_major (dev : Nat) : Nat :=
  dev / 2 ^ 8 % 2 ^ 12 + dev / 2 ^ 44 % 2 ^ 20 * 2 ^ 12

/-- `gnu_dev_minor` of glibc, behind `nix::sys::stat::minor`:
`(dev & 0xff) | ((dev >> 12) & ~0xff)`. -/
def dev_minor (dev : Nat) : Nat :=
  dev % 2 ^ 8 + dev / 2 ^ 20 % 2 ^ 24 * 2 ^ 8

/-- `Node::is_overlayfs_whiteout` (node.rs lines 468-476): a character device
with major and minor number 0, only under the overlayfs whiteout spec. -/
def Node.is_overlayfs_whiteout (n : Node) (spec : WhiteoutSpec) : Bool :=
  if spec ≠ WhiteoutSpec.Overlayfs then false
  else n.is_chr && dev_major n.rdev == 0 && dev_minor n.rdev == 0

/-- `Node::is_overlayfs_opaque` (lines 478-496): the xattr
`trusted.overlay.opaque` holds the value "y", only under the overlayfs spec. -/
def Node.is_overlayfs_opaque (n : Node) (spec : WhiteoutSpec) : Bool :=
  if spec ≠ WhiteoutSpec.Overlayfs then false
  else match n.xattrs.lookup "trusted.overlay.opaque" with
    | some v => v == "y"
    | none => false

/-- `Node::whiteout_type` (lines 498-523): lower-layer nodes are never
whiteouts; otherwise dispatch on the whiteout spec. -/
def Node.whiteout_type (n : Node) (spec : WhiteoutSpec) : Option WhiteoutType :=
  if n.overlay = Overlay.Lower then none
  else
    match spec with
    | WhiteoutSpec.Oci =>
      if n.name = OCISPEC_WHITEOUT_OPAQUE then some WhiteoutType.OCIOpaque
      else if n.name.startsWith OCISPEC_WHITEOUT_PREFIX then some WhiteoutType.OCIRemoval
      else none
    | WhiteoutSpec.Overlayfs =>
      if n.is_overlayfs_whiteout spec then some WhiteoutType.OverlayFSRemoval
      else if n.is_overlayfs_opaque spec then some WhiteoutType.OverlayFSOpaque
      else none

/-- Mutable state threaded through `Node::dump_blob` (node.rs lines 193-296):
the bytes written to `f_blob`, the sequence of buffers fed to the running
blob SHA-256 (`blob_hash.update`), the two offset cursors, the per-build
chunk cache (`HashMap<RafsDigest, OndiskChunkInfo>` as an association list),
the node's chunk list `self.chunks`, the digests fed to the inode hasher,
and the accumulated `blob_size` return value. -/
structure DumpState where
  blob : List Nat
  blob_hash : List (List Nat)
  compress_offset : Nat
  decompress_offset : Nat
  chunk_cache : List (Nat × OndiskChunkInfo)
  chunks : List OndiskChunkInfo
  inode_hash : List Nat
  blob_size : Nat
deriving DecidableEq

/-- `HashMap::get` on the association-list cache. -/
def cacheGet (cache : List (Nat × OndiskChunkInfo)) (k : Nat) : Option OndiskChunkInfo :=
  cache.lookup k

/-- `HashMap::insert` on the association-list cache (replaces any previous
binding of the key). -/
def cacheInsert (cache : List (Nat × OndiskChunkInfo)) (k : Nat) (v : OndiskChunkInfo) :
    List (Nat × OndiskChunkInfo) :=
  (k, v) :: cache.filter (fun p => p.1 ≠ k)

/-- Chunk size of slice `i` (node.rs lines 225-229): the last slice is the
remainder, other slices are `RAFS_DEFAULT_BLOCK_SIZE`. -/
def node_chunk_size (file_size child_count i : Nat) : Nat :=
  if i = child_count - 1 then file_size - RAFS_DEFAULT_BLOCK_SIZE * i
  else RAFS_DEFAULT_BLOCK_SIZE

/-- The compress-and-append path of the `dump_blob` loop body (node.rs lines
260-289), reached on a cache miss or when the cached record's
`decompress_size` matches neither 0 nor the slice size.  `compressor` is the
oracle for `compress::compress`; its `Bool` result is `is_compressed`. -/
def dump_blob_chunk_compress (blob_index : Nat)
    (compressor : List Nat → List Nat × Bool)
    (file_offset chunk_size block_id : Nat) (chunk_data : List Nat)
    (st : DumpState) : DumpState :=
  let compressed := (compressor chunk_data).1
  let is_compressed := (compressor chunk_data).2
  let compressed_size := compressed.length
  let chunk : OndiskChunkInfo :=
    { block_id := block_id
      blob_index := blob_index
      flags := if is_compressed then 1 else 0
      compress_size := compressed_size
      decompress_size := chunk_size
      compress_offset := st.compress_offset
      decompress_offset := st.decompress_offset
      file_offset := file_offset }
  { st with
      blob_size := st.blob_size + compressed_size
      compress_offset := st.compress_offset + compressed_size
      decompress_offset := st.decompress_offset + chunk_size
      blob_hash := st.blob_hash ++ [compressed]
      blob := st.blob ++ compressed
      chunk_cache := cacheInsert st.chunk_cache block_id chunk
      chunks := st.chunks ++ [chunk] }

/-- One iteration `i` of the `dump_blob` loop (node.rs lines 219-290).
`file` is the regular file's content; `read_exact` is sequential, so slice
`i` starts at byte `i * RAFS_DEFAULT_BLOCK_SIZE` and reading fails if the
file is shorter than the slice demands.  `digester` is the oracle for
`RafsDigest::from_buf`. -/
def dump_blob_chunk (file : List Nat) (file_size child_count blob_index : Nat)
    (digester : List Nat → Nat) (compressor : List Nat → List Nat × Bool)
    (i : Nat) (st : DumpState) : Except String DumpState :=
  let file_offset := i * RAFS_DEFAULT_BLOCK_SIZE
  let chunk_size := node_chunk_size file_size child_count i
  if file.length < i * RAFS_DEFAULT_BLOCK_SIZE + chunk_size then
    .error "read_exact failed"
  else
    let chunk_data := (file.drop (i * RAFS_DEFAULT_BLOCK_SIZE)).take chunk_size
    let block_id := digester chunk_data
    let st := { st with inode_hash := st.inode_hash ++ [block_id] }
    match cacheGet st.chunk_cache block_id with
    | some cached_chunk =>
      -- a hole cached_chunk can have zero decompress size
      if cached_chunk.decompress_size = 0 ∨ cached_chunk.decompress_size = chunk_size then
        let chunk := { cached_chunk with file_offset := file_offset }
        .ok { st with chunks := st.chunks ++ [chunk] }
      else
        .ok (dump_blob_chunk_compress blob_index compressor file_offset chunk_size
          block_id chunk_data st)
    | none =>
      .ok (dump_blob_chunk_compress blob_index compressor file_offset chunk_size
        block_id chunk_data st)

/-- The `for i in 0..self.inode.i_child_count` loop of `dump_blob`,
iterated by remaining count. -/
def dump_blob_iter (file : List Nat) (file_size child_count blob_index : Nat)
    (digester : List Nat → Nat) (compressor : List Nat → List Nat × Bool) :
    Nat → Nat → DumpState → Except String DumpState
  | 0, _, st => .ok st
  | remaining + 1, i, st =>
    match dump_blob_chunk file file_size child_count blob_index digester compressor i st with
    | .error e => .error e
    | .ok st' =>
      dump_blob_iter file file_size child_count blob_index digester compressor remaining (i + 1) st'

/-- `Node::dump_blob` (node.rs lines 193-296).  Directories return
immediately; symlinks only set the inode digest (not part of `DumpState`)
and return; regular files run the chunk loop.  The returned `usize` is the
accumulated local `blob_size`, i.e. the growth of the `blob_size` field. -/
def dump_blob (node : Node) (file : List Nat) (blob_index : Nat)
    (digester : List Nat → Nat) (compressor : List Nat → List Nat × Bool)
    (st : DumpState) : Except String (DumpState × Nat) :=
  if node.is_dir then .ok (st, 0)
  else if node.is_symlink then .ok (st, 0)
  else
    match dump_blob_iter file node.i_size node.i_child_count blob_index digester compressor
        node.i_child_count 0 st with
    | .error e => .error e
    | .ok st' => .ok (st', st'.blob_size - st.blob_size)

/-- The chunk-count guard of `Node::dump_bootstrap` (node.rs lines 317-324):
for a regular file the node's chunk list length must equal
`i_child_count`. -/
def dump_bootstrap_chunk_guard (node : Node) (chunks : List OndiskChunkInfo) :
    Except String Unit :=
  if node.is_reg = true ∧ node.i_child_count ≠ chunks.length then
    .error "invalid chunks count"
  else
    .ok ()

/-! ## `src/src/bin/nydus-image/core/context.rs` — `BlobBufferWriter` -/

/-- A directory of files: association of absolute path to content. -/
abbrev FS : Type := List (String × List Nat)

/-- `Path::exists`. -/
def fsExists (fs : FS) (p : String) : Bool := (List.lookup p fs).isSome

/-- `Path::lookup` of a file's content. -/
def fsLookup (fs : FS) (p : String) : Option (List Nat) := List.lookup p fs

/-- `std::fs::remove_file`: errors if the path does not exist, otherwise
drops every binding of the path. -/
def remove_file (fs : FS) (p : String) : Except String FS :=
  if fsExists fs p then
    .ok (List.filter (fun q => q.1 ≠ p) fs)
  else
    .error "No such file or directory"

/-- `std::fs::rename` (POSIX): errors if the source does not exist, otherwise
moves the source content to the destination, silently replacing any existing
destination. -/
def rename (fs : FS) (src dst : String) : Except String FS :=
  match fsLookup fs src with
  | none => .error "No such file or directory"
  | some content =>
    .ok ((dst, content) :: List.filter (fun q => q.1 ≠ src ∧ q.1 ≠ dst) fs)

/-- `Path::new(s).join(n)`. -/
def pathJoin (dir name : String) : String := dir ++ "/" ++ name

/-- `BlobStorage` (context.rs lines 74-80). -/
inductive BlobStorage where
  | SingleFile (p : String)
  | BlobsDir (p : String)
deriving DecidableEq

/-- `BlobBufferWriter` (context.rs lines 88-94): the written bytes already
live in the file-system model (at the temp path for `BlobsDir`, at the given
path for `SingleFile`), so only the storage mode and the temp path are
state.  `tmp_file` is `some` exactly in `BlobsDir` mode. -/
structure BlobBufferWriter where
  blob_stor : BlobStorage
  tmp_file : Option String

/-- `BlobBufferWriter::release` (context.rs lines 140-172).  `into_inner` and
`flush` only push buffered bytes into the already-modelled file content.
With `Some(name)` in `BlobsDir` mode: remove `dir/name` if it exists, then
rename the temp file onto it.  With `None` in `SingleFile` mode: remove the
file.  All other combinations fall through and return `Ok`.
`self.tmp_file.unwrap()` (which panics on `None`) is embedded with
`Option.getD`; in `BlobsDir` mode `tmp_file` is always `some`. -/
def BlobBufferWriter.release (w : BlobBufferWriter) (name : Option String) (fs : FS) :
    Except String FS :=
  match name with
  | some n =>
    match w.blob_stor with
    | BlobStorage.BlobsDir s =>
      let might_exist_path := pathJoin s n
      let step1 :=
        if fsExists fs might_exist_path then remove_file fs might_exist_path
        else .ok fs
      match step1 with
      | .error e => .error e
      | .ok fs1 => rename fs1 (w.tmp_file.getD "") might_exist_path
    | BlobStorage.SingleFile _ => .ok fs
  | none =>
    match w.blob_stor with
    | BlobStorage.SingleFile s =>
      -- no blob was really built; delete the file
      remove_file fs s
    | BlobStorage.BlobsDir _ => .ok fs

/-! ## `BlobMetaInfo::new` (meta/mod.rs lines 192-293), construction prefix -/

/-- `RAFS_MAX_CHUNKS_PER_BLOB` from `storage/src/lib.rs` (not under the
provided sources).  Modelled from the spec: the chunk index is a `u32` and
the V1 metadata table bounds the count; the upstream constant is `1 << 24`. -/
def RAFS_MAX_CHUNKS_PER_BLOB : Nat := 2 ^ 24

/-- `RAFS_MAX_CHUNK_SIZE` from `storage/src/lib.rs` (not under the provided
sources).  Modelled from the spec: §4.4 bounds a chunk at 1 MiB. -/
def RAFS_MAX_CHUNK_SIZE : Nat := 0x100000

/-- `BLOB_METADATA_V1_MAX_SIZE` (meta/mod.rs line 40). -/
def BLOB_METADATA_V1_MAX_SIZE : Nat := RAFS_MAX_CHUNK_SIZE * 16

/-- `BLOB_METADATA_HEADER_SIZE` (meta/mod.rs line 37). -/
def BLOB_METADATA_HEADER_SIZE : Nat := 0x1000

/-- The fields of `BlobInfo` that the construction prefix of
`BlobMetaInfo::new` consults. -/
structure BlobInfoView where
  chunk_count : Nat
  meta_ci_uncompressed_size : Nat

/-- File-system side effects performed by `BlobMetaInfo::new`. -/
inductive MetaFileOp where
  | openFile
  | setLen
  | mapFile
deriving DecidableEq

/-- The construction prefix of `BlobMetaInfo::new` (meta/mod.rs lines
192-243), through the `FileMapState::new` mapping call, together with the
trace of file operations it performs.  `enable_write` is `reader.is_some()`;
`open_ok` tells whether the `OpenOptions::open` call succeeds and
`file_size` is the length the opened file reports.  The post-mapping logic
(header comparison and backfill) touches none of the guards the claims are
about and is not modelled. -/
def blob_meta_info_new (info : BlobInfoView) (enable_write open_ok : Bool)
    (file_size : Nat) : Except String Unit × List MetaFileOp :=
  if info.chunk_count = 0 ∨ info.chunk_count > RAFS_MAX_CHUNKS_PER_BLOB then
    (.error "chunk count should be greater than 0", [])
  else
    let ops := [MetaFileOp.openFile]
    if open_ok = false then
      (.error "failed to open/create blob chunk_map file", ops)
    else
      let info_size := info.meta_ci_uncompressed_size
      let aligned_info_size := round_up_4k info_size
      if info_size ≠ info.chunk_count * 16 ∨ aligned_info_size > BLOB_METADATA_V1_MAX_SIZE then
        (.error "blob metadata size is too big!", ops)
      else
        let ops := if file_size = 0 ∧ enable_write = true then ops ++ [MetaFileOp.setLen] else ops
        (.ok (), ops ++ [MetaFileOp.mapFile])

/-- The two-record fixture of `test_get_chunk_index_with_hole`
(meta/mod.rs lines 820-848): chunks at uncompressed offsets `0` and
`0x100000`, each spanning `0x2000` uncompressed bytes, with a hole in
between. -/
def twoChunkHoleState : BlobMetaState :=
  { blob_index := 0
    compressed_size := 0
    uncompressed_size := 0
    chunk_count := 2
    chunks := [
      { uncomp_info := 0x01fff00000000000, comp_info := 0x00fff00000000000 },
      { uncomp_info := 0x01fff00000100000, comp_info := 0x00fff00000100000 }]
    is_stargz := false }
/-- The five-record fixture of `test_get_chunks` (meta/mod.rs lines
892-966): c0 u=[0,0x1001)→0x2000 c=[0,0x1000); c1 u=[0x2000,0x4000)
c=[0x1000,0x3000) stored raw; c2 u=[0x4000,0x6000) c=[0x3000,0x4000);
c3 u=[0x100000,0x102000) c=[0x4000,0x5000); c4 u=[0x102000,0x104000)
c=[0x5000,0x6000). -/
def fiveChunkState : BlobMetaState :=
  { blob_index := 1
    compressed_size := 0x6001
    uncompressed_size := 0x102001
    chunk_count := 5
    chunks := [
      { uncomp_info := 0x0100000000000000, comp_info := 0x00fff00000000000 },
      { uncomp_info := 0x01fff00000002000, comp_info := 0x01fff00000001000 },
      { uncomp_info := 0x01fff00000004000, comp_info := 0x00fff00000003000 },
      { uncomp_info := 0x01fff00000100000, comp_info := 0x00fff00000004000 },
      { uncomp_info := 0x01fff00000102000, comp_info := 0x00fff00000005000 }]
    is_stargz := false }
/-- A two-chunk state whose records abut in compressed coordinates but leave
an uncompressed gap `[0x1000, 0x2000)`, with a selectable stargz flag. -/
def uncompGapState (stargz : Bool) : BlobMetaState :=
  { blob_index := 0
    compressed_size := 0x2000
    uncompressed_size := 0x3000
    chunk_count := 2
    chunks := [add_v1 0 0x1000 0 0x1000, add_v1 0x1000 0x1000 0x2000 0x1000]
    is_stargz := stargz }
/-- A two-chunk state whose records abut in uncompressed coordinates but
leave a compressed gap `[0x1000, 0x2000)`, with a selectable stargz flag. -/
def compGapState (stargz : Bool) : BlobMetaState :=
  { blob_index := 0
    compressed_size := 0x3000
    uncompressed_size := 0x2000
    chunk_count := 2
    chunks := [add_v1 0 0x1000 0 0x1000, add_v1 0x2000 0x1000 0x1000 0x1000]
    is_stargz := stargz }
/-- A two-chunk state contiguous in both coordinate systems. -/
def contigTwoState : BlobMetaState :=
  { blob_index := 0
    compressed_size := 0x2000
    uncompressed_size := 0x2000
    chunk_count := 2
    chunks := [add_v1 0 0x1000 0 0x1000, add_v1 0x1000 0x1000 0x1000 0x1000]
    is_stargz := false }
/-- A concrete cached chunk record for the C6 witness. -/
def c6CachedChunk : OndiskChunkInfo :=
  { block_id := 7, blob_index := 0, flags := 1, compress_size := 3, decompress_size := 4,
    compress_offset := 0, decompress_offset := 0, file_offset := 99 }
/-- A concrete dump state whose cache already holds digest 7. -/
def c6State : DumpState :=
  { blob := [9], blob_hash := [[9]], compress_offset := 5, decompress_offset := 6,
    chunk_cache := [(7, c6CachedChunk)], chunks := [], inode_hash := [], blob_size := 5 }
/-- A concrete regular-file node for the C7 witness: 5 bytes, one chunk. -/
def c7Node : Node :=
  { overlay := Overlay.UpperAddition, name := "f", i_mode := 0o100644, i_size := 5,
    i_child_count := 1, rdev := 0, xattrs := [] }
/-- The all-empty dump state. -/
def emptyDumpState : DumpState :=
  { blob := [], blob_hash := [], compress_offset := 0, decompress_offset := 0,
    chunk_cache := [], chunks := [], inode_hash := [], blob_size := 0 }
/-- The chunk record produced by dumping `c7Node`'s single chunk. -/
def c7Chunk : OndiskChunkInfo :=
  { block_id := 3, blob_index := 0, flags := 1, compress_size := 5, decompress_size := 5,
    compress_offset := 0, decompress_offset := 0, file_offset := 0 }
/-- The dump state after dumping `c7Node`. -/
def c7Final : DumpState :=
  { blob := [1, 2, 3, 4, 5], blob_hash := [[1, 2, 3, 4, 5]], compress_offset := 5,
    decompress_offset := 5, chunk_cache := [(3, c7Chunk)], chunks := [c7Chunk],
    inode_hash := [3], blob_size := 5 }
/-- A lower-layer node that would be a whiteout in every other respect: its
name starts with `.wh.`, it is a character device with major/minor 0, and
it carries `trusted.overlay.opaque=y`. -/
def lowerWhiteoutLikeNode : Node :=
  { overlay := Overlay.Lower, name := ".wh.foo", i_mode := 0o020000, i_size := 0,
    i_child_count := 0, rdev := 0, xattrs := [("trusted.overlay.opaque", "y")] }

/-- The `start` coordinate the binary search compares, per coordinate flag. -/
def chunkStartIn (compressed : Bool) (c : BlobChunkInfoV1Ondisk) : Nat :=
  if compressed then c.compressed_offset else c.uncompressed_offset

/-- The `end` coordinate the binary search compares, per coordinate flag. -/
def chunkEndIn (compressed : Bool) (c : BlobChunkInfoV1Ondisk) : Nat :=
  if compressed then c.compressed_end else c.uncompressed_end

theorem chunkStartIn_le_chunkEndIn (compressed : Bool) (c : BlobChunkInfoV1Ondisk) :
    chunkStartIn compressed c ≤ chunkEndIn compressed c := by
  cases compressed <;>
    simp [chunkStartIn, chunkEndIn, BlobChunkInfoV1Ondisk.compressed_end,
      BlobChunkInfoV1Ondisk.uncompressed_end]

theorem get_chunk_index_loop_ok_iff
    (s : BlobMetaState) (addr : Nat) (compressed : Bool)
    (hsorted : ∀ i j, i < j → j < s.chunks.length →
      chunkEndIn compressed (s.chunks.getD i chunkDefault) ≤
        chunkStartIn compressed (s.chunks.getD j chunkDefault)) :
    ∀ fuel left right, right ≤ s.chunks.length → right - left < fuel →
    (∀ k, k < left → chunkEndIn compressed (s.chunks.getD k chunkDefault) ≤ addr) →
    (∀ k, right ≤ k → k < s.chunks.length →
      addr < chunkStartIn compressed (s.chunks.getD k chunkDefault)) →
    ∀ i, (get_chunk_index_loop s addr compressed fuel left right (right - left) = .ok i ↔
      (left ≤ i ∧ i < right ∧
        chunkStartIn compressed (s.chunks.getD i chunkDefault) ≤ addr ∧
        addr < chunkEndIn compressed (s.chunks.getD i chunkDefault))) := by
  intro fuel
  induction fuel with
  | zero => intro left right _ hf; exact absurd hf (Nat.not_lt_zero _)
  | succ fuel ih =>
    intro left right hright hf hlow hhigh i
    rw [get_chunk_index_loop]
    by_cases hlr : left < right
    · rw [if_pos hlr]
      simp only []
      have hmid : left + (right - left) / 2 < right := by omega
      have hmidl : left ≤ left + (right - left) / 2 := by omega
      set mid := left + (right - left) / 2 with hmiddef
      have hstart : (if compressed then (s.chunks.getD mid chunkDefault).compressed_offset
          else (s.chunks.getD mid chunkDefault).uncompressed_offset) =
          chunkStartIn compressed (s.chunks.getD mid chunkDefault) := by
        simp [chunkStartIn]
      have hstop : (if compressed then (s.chunks.getD mid chunkDefault).compressed_end
          else (s.chunks.getD mid chunkDefault).uncompressed_end) =
          chunkEndIn compressed (s.chunks.getD mid chunkDefault) := by
        simp [chunkEndIn]
      rw [hstart, hstop]
      by_cases hgt : chunkStartIn compressed (s.chunks.getD mid chunkDefault) > addr
      · rw [if_pos hgt]
        have hrec : mid - left = mid - left := rfl
        have h1 : mid ≤ s.chunks.length := by omega
        have h2 : mid - left < fuel := by omega
        have hhigh' : ∀ k, mid ≤ k → k < s.chunks.length →
            addr < chunkStartIn compressed (s.chunks.getD k chunkDefault) := by
          intro k hk hk2
          rcases Nat.eq_or_lt_of_le hk with h | h
          · exact h ▸ hgt
          · have := hsorted mid k h hk2
            have := chunkStartIn_le_chunkEndIn compressed (s.chunks.getD mid chunkDefault)
            omega
        have := ih left mid h1 h2 hlow hhigh' i
        rw [this]
        constructor
        · rintro ⟨a, b, c, d⟩; exact ⟨a, by omega, c, d⟩
        · rintro ⟨a, b, c, d⟩
          refine ⟨a, ?_, c, d⟩
          by_contra hbig
          have hkmid : mid ≤ i := by omega
          have := hhigh' i hkmid (by omega)
          omega
      · rw [if_neg hgt]
        by_cases hle : chunkEndIn compressed (s.chunks.getD mid chunkDefault) ≤ addr
        · rw [if_pos hle]
          have h1 : right ≤ s.chunks.length := hright
          have h2 : right - (mid + 1) < fuel := by omega
          have hlow' : ∀ k, k < mid + 1 →
              chunkEndIn compressed (s.chunks.getD k chunkDefault) ≤ addr := by
            intro k hk
            rcases Nat.lt_or_ge k mid with h | h
            · have := hsorted k mid h (by omega)
              have := chunkStartIn_le_chunkEndIn compressed (s.chunks.getD mid chunkDefault)
              omega
            · have : k = mid := by omega
              exact this ▸ hle
          have := ih (mid + 1) right h1 h2 hlow' hhigh i
          rw [this]
          constructor
          · rintro ⟨a, b, c, d⟩; exact ⟨by omega, b, c, d⟩
          · rintro ⟨a, b, c, d⟩
            refine ⟨?_, b, c, d⟩
            by_contra hsmall
            have := hlow' i (by omega)
            omega
        · rw [if_neg hle]
          constructor
          · intro h
            have : mid = i := by
              simpa using h
            subst this
            exact ⟨hmidl, hmid, by omega, by omega⟩
          · rintro ⟨a, b, c, d⟩
            have : i = mid := by
              by_contra hne
              rcases Nat.lt_or_ge i mid with h | h
              · have := hsorted i mid h (by omega)
                omega
              · have : mid < i := by omega
                have := hsorted mid i this (by omega)
                omega
            subst this
            rfl
    · rw [if_neg hlr]
      constructor
      · intro h; cases h
      · rintro ⟨a, b, _, _⟩; omega

theorem get_chunk_index_nocheck_ok_iff
    (s : BlobMetaState) (addr : Nat) (compressed : Bool)
    (hcount : s.chunk_count = s.chunks.length)
    (hsorted : ∀ i j, i < j → j < s.chunks.length →
      chunkEndIn compressed (s.chunks.getD i chunkDefault) ≤
        chunkStartIn compressed (s.chunks.getD j chunkDefault)) :
    ∀ i, (get_chunk_index_nocheck s addr compressed = .ok i ↔
      (i < s.chunks.length ∧
        chunkStartIn compressed (s.chunks.getD i chunkDefault) ≤ addr ∧
        addr < chunkEndIn compressed (s.chunks.getD i chunkDefault))) := by
  intro i
  have h0 : s.chunk_count - 0 = s.chunk_count := by omega
  have := get_chunk_index_loop_ok_iff s addr compressed hsorted (s.chunk_count + 1) 0
    s.chunk_count (by omega) (by omega) (by omega) (by omega) i
  rw [get_chunk_index_nocheck]
  rw [h0] at this
  rw [this]
  omega

/-- If no chunk's span contains the address, the binary search returns an
error. -/
theorem get_chunk_index_nocheck_err
    (s : BlobMetaState) (addr : Nat) (compressed : Bool)
    (hcount : s.chunk_count = s.chunks.length)
    (hsorted : ∀ i j, i < j → j < s.chunks.length →
      chunkEndIn compressed (s.chunks.getD i chunkDefault) ≤
        chunkStartIn compressed (s.chunks.getD j chunkDefault))
    (hnone : ∀ i, i < s.chunks.length →
      ¬(chunkStartIn compressed (s.chunks.getD i chunkDefault) ≤ addr ∧
        addr < chunkEndIn compressed (s.chunks.getD i chunkDefault))) :
    exceptIsOk (get_chunk_index_nocheck s addr compressed) = false := by
  cases h : get_chunk_index_nocheck s addr compressed with
  | error e => rfl
  | ok i =>
    have := (get_chunk_index_nocheck_ok_iff s addr compressed hcount hsorted i).mp h
    exact absurd ⟨this.2.1, this.2.2⟩ (hnone i this.1)

/-- C2: over any well-formed chunk array (count matching the array, spans
sorted and non-overlapping in uncompressed coordinates), the uncompressed
binary search `get_chunk_index_nocheck` answers `Ok i` exactly when chunk
`i`'s half-open uncompressed span `[offset, end)` contains the address —
hence an address equal to the end of chunk `i` resolves to `i + 1` whenever
chunk `i + 1` starts there, and an address inside a hole or past the last
chunk yields an error.  In particular, on the two-chunk fixture of
`test_get_chunk_index_with_hole`, lookups at `0`, `0x1fff`, `0x100000`,
`0x101fff` return indices `0`, `0`, `1`, `1` and lookups at `0x2000`,
`0xfffff`, `0x102000` fail. -/
theorem claim_C2 (s : BlobMetaState)
    (hcount : s.chunk_count = s.chunks.length)
    (hsorted : ∀ i j, i < j → j < s.chunks.length →
      (s.chunks.getD i chunkDefault).uncompressed_end ≤
        (s.chunks.getD j chunkDefault).uncompressed_offset) :
    (∀ addr i, get_chunk_index_nocheck s addr false = .ok i ↔
      (i < s.chunks.length ∧
        (s.chunks.getD i chunkDefault).uncompressed_offset ≤ addr ∧
        addr < (s.chunks.getD i chunkDefault).uncompressed_end)) ∧
    (get_chunk_index_nocheck twoChunkHoleState 0 false = .ok 0 ∧
      get_chunk_index_nocheck twoChunkHoleState 0x1fff false = .ok 0 ∧
      get_chunk_index_nocheck twoChunkHoleState 0x100000 false = .ok 1 ∧
      get_chunk_index_nocheck twoChunkHoleState 0x101fff false = .ok 1 ∧
      exceptIsOk (get_chunk_index_nocheck twoChunkHoleState 0x2000 false) = false ∧
      exceptIsOk (get_chunk_index_nocheck twoChunkHoleState 0xfffff false) = false ∧
      exceptIsOk (get_chunk_index_nocheck twoChunkHoleState 0x102000 false) = false) := by
  constructor
  · intro addr i
    have hsorted' : ∀ i j, i < j → j < s.chunks.length →
        chunkEndIn false (s.chunks.getD i chunkDefault) ≤
          chunkStartIn false (s.chunks.getD j chunkDefault) := by
      intro i j hij hj
      simpa [chunkStartIn, chunkEndIn] using hsorted i j hij hj
    simpa [chunkStartIn, chunkEndIn] using
      get_chunk_index_nocheck_ok_iff s addr false hcount hsorted' i
  · exact ⟨rfl, rfl, rfl, rfl, by decide, by decide, by decide⟩

/-- Witness for C2: the theorem applied to the concrete fixture, with the
sortedness hypotheses discharged there. -/
theorem claim_C2_witness :
    get_chunk_index_nocheck twoChunkHoleState 0x1fff false = .ok 0 ∧
    get_chunk_index_nocheck twoChunkHoleState 0x100000 false = .ok 1 := by
  have h := claim_C2 twoChunkHoleState (by decide)
    (by
      intro i j hij hj
      have hj2 : j < 2 := by simpa [twoChunkHoleState] using hj
      have hij' : i = 0 ∧ j = 1 := by omega
      obtain ⟨hi, hjj⟩ := hij'
      subst hi; subst hjj
      decide)
  exact ⟨((h.1 0x1fff 0).mpr (by decide)), ((h.1 0x100000 1).mpr (by decide))⟩

/-- The five-chunk fixture is sorted and non-overlapping in uncompressed
coordinates. -/
theorem fiveChunkSorted : ∀ i j, i < j → j < fiveChunkState.chunks.length →
    chunkEndIn false (fiveChunkState.chunks.getD i chunkDefault) ≤
      chunkStartIn false (fiveChunkState.chunks.getD j chunkDefault) := by
  intro i j hij hj
  have hj5 : j < 5 := by simpa [fiveChunkState] using hj
  interval_cases j <;> interval_cases i <;> decide

/-- Walking the five-chunk fixture from index 2 (uncompressed `last_end`
`0x6000`) always hits the contiguity error at chunk 3. -/
theorem c1_loop2 (endv : Nat) (vec : List Nat) (fuel : Nat) :
    get_chunks_uncompressed_loop fiveChunkState endv endv (fuel + 1) 2 0x6000 vec =
      .error "mismatch uncompressed" := by
  rw [get_chunks_uncompressed_loop]
  rw [if_pos (by decide)]
  have hv : validate_chunk fiveChunkState (fiveChunkState.chunks.getD (2 + 1) chunkDefault) =
      .ok () := rfl
  simp only [hv]
  rw [if_pos (by decide)]

/-- Walking from index 1 with a query end past the hole reaches the
contiguity error at chunk 3. -/
theorem c1_loop1 (endv : Nat) (vec : List Nat) (fuel : Nat) (h : 0x6000 < endv) :
    get_chunks_uncompressed_loop fiveChunkState endv endv (fuel + 2) 1 0x4000 vec =
      .error "mismatch uncompressed" := by
  rw [get_chunks_uncompressed_loop]
  rw [if_pos (by decide)]
  have hv : validate_chunk fiveChunkState (fiveChunkState.chunks.getD (1 + 1) chunkDefault) =
      .ok () := rfl
  simp only [hv]
  rw [if_neg (by decide)]
  rw [if_neg (by
    intro hc
    have := hc.1
    omega)]
  have he : (fiveChunkState.chunks.getD (1 + 1) chunkDefault).aligned_uncompressed_end =
      0x6000 := by decide
  rw [he]
  rw [if_neg (by omega)]
  exact c1_loop2 endv (vec ++ [1 + 1]) fuel

/-- Walking from index 0 with a query end past the hole reaches the
contiguity error at chunk 3. -/
theorem c1_loop0 (endv : Nat) (vec : List Nat) (fuel : Nat) (h : 0x6000 < endv) :
    get_chunks_uncompressed_loop fiveChunkState endv endv (fuel + 3) 0 0x2000 vec =
      .error "mismatch uncompressed" := by
  rw [get_chunks_uncompressed_loop]
  rw [if_pos (by decide)]
  have hv : validate_chunk fiveChunkState (fiveChunkState.chunks.getD (0 + 1) chunkDefault) =
      .ok () := rfl
  simp only [hv]
  rw [if_neg (by decide)]
  rw [if_neg (by
    intro hc
    have := hc.1
    omega)]
  have he : (fiveChunkState.chunks.getD (0 + 1) chunkDefault).aligned_uncompressed_end =
      0x4000 := by decide
  rw [he]
  rw [if_neg (by omega)]
  exact c1_loop1 endv (vec ++ [0 + 1]) fuel h

/-- C1: on the five-chunk fixture of `test_get_chunks`,
`get_chunks_uncompressed` with batch size 0 returns exactly `[c0]` for
query `(0, 0x1001)`, `[c0, c1]` for `(0, 0x4000)`, `[c0, c1, c2]` for
`(0, 0x4001)` and `[c3]` for `(0x100000, 0x2000)`; and every query whose
covered range `[start, start + size)` crosses the hole `[0x6000, 0x100000)`
between c2 and c3 returns an error. -/
theorem claim_C1 :
    get_chunks_uncompressed fiveChunkState 0 0x1001 0 = .ok [0] ∧
    get_chunks_uncompressed fiveChunkState 0 0x4000 0 = .ok [0, 1] ∧
    get_chunks_uncompressed fiveChunkState 0 0x4001 0 = .ok [0, 1, 2] ∧
    get_chunks_uncompressed fiveChunkState 0x100000 0x2000 0 = .ok [3] ∧
    (∀ start size, start < 0x100000 → 0x6000 < start + size →
      exceptIsOk (get_chunks_uncompressed fiveChunkState start size 0) = false) := by
  refine ⟨rfl, rfl, rfl, rfl, ?_⟩
  intro start size h1 h2
  rw [get_chunks_uncompressed]
  by_cases hA : start + size > u64Max
  · rw [if_pos hA]; rfl
  rw [if_neg hA]
  by_cases hB : start + size > fiveChunkState.uncompressed_size
  · rw [if_pos hB]; rfl
  rw [if_neg hB]
  have hB' : start + size ≤ 0x102001 := by
    simpa [fiveChunkState] using hB
  simp only []
  rw [if_pos (Nat.zero_le size)]
  cases hidx : get_chunk_index_nocheck fiveChunkState start false with
  | error e => rfl
  | ok index =>
    have hspec := (get_chunk_index_nocheck_ok_iff fiveChunkState start false rfl
      fiveChunkSorted index).mp hidx
    have hidx5 : index < 5 := by simpa [fiveChunkState] using hspec.1
    have hsta := hspec.2.1
    interval_cases index
    · have hv : validate_chunk fiveChunkState (fiveChunkState.chunks.getD 0 chunkDefault) =
          .ok () := rfl
      simp only [hv]
      have ha : (fiveChunkState.chunks.getD 0 chunkDefault).aligned_uncompressed_end =
          0x2000 := rfl
      rw [ha, if_neg (by omega)]
      have hlen : fiveChunkState.chunks.length = 2 + 3 := rfl
      rw [hlen, c1_loop0 (start + size) [0] 2 h2]
      rfl
    · have hv : validate_chunk fiveChunkState (fiveChunkState.chunks.getD 1 chunkDefault) =
          .ok () := rfl
      simp only [hv]
      have ha : (fiveChunkState.chunks.getD 1 chunkDefault).aligned_uncompressed_end =
          0x4000 := rfl
      rw [ha, if_neg (by omega)]
      have hlen : fiveChunkState.chunks.length = 3 + 2 := rfl
      rw [hlen, c1_loop1 (start + size) [1] 3 h2]
      rfl
    · have hv : validate_chunk fiveChunkState (fiveChunkState.chunks.getD 2 chunkDefault) =
          .ok () := rfl
      simp only [hv]
      have ha : (fiveChunkState.chunks.getD 2 chunkDefault).aligned_uncompressed_end =
          0x6000 := rfl
      rw [ha, if_neg (by omega)]
      have hlen : fiveChunkState.chunks.length = 4 + 1 := rfl
      rw [hlen, c1_loop2 (start + size) [2] 4]
      rfl
    · have h3 : chunkStartIn false (fiveChunkState.chunks.getD 3 chunkDefault) = 0x100000 := rfl
      rw [h3] at hsta
      omega
    · have h4 : chunkStartIn false (fiveChunkState.chunks.getD 4 chunkDefault) = 0x102000 := rfl
      rw [h4] at hsta
      omega

/-- Witness for C1: the hole-crossing clause applied at the concrete query
`(0x7000, 0x1000)`. -/
theorem claim_C1_witness :
    0x7000 < 0x100000 ∧ 0x6000 < 0x7000 + 0x1000 ∧
    exceptIsOk (get_chunks_uncompressed fiveChunkState 0x7000 0x1000 0) = false :=
  ⟨by decide, by decide, claim_C1.2.2.2.2 0x7000 0x1000 (by decide) (by decide)⟩

/-- C3 (amended): for every quadruple with compressed offset below `2^40`,
compressed size in `[1, 2^24]`, uncompressed offset divisible by 4096 and
below `2^44` (not `2^52`: the on-disk field holds the 4 KiB-aligned offset in
32 bits), and uncompressed size in `[1, 2^24]` — including the boundary
values — packing the four fields with the `add_v1` setter sequence and
reading them back through the accessors yields the same four values. -/
theorem claim_C3 (co cs uo us : Nat)
    (hco : co < 2 ^ 40)
    (hcs1 : 1 ≤ cs) (hcs2 : cs ≤ 2 ^ 24)
    (huo4k : uo % 4096 = 0) (huo : uo < 2 ^ 44)
    (hus1 : 1 ≤ us) (hus2 : us ≤ 2 ^ 24) :
    (add_v1 co cs uo us).compressed_offset = co ∧
    (add_v1 co cs uo us).compressed_size = cs ∧
    (add_v1 co cs uo us).uncompressed_offset = uo ∧
    (add_v1 co cs uo us).uncompressed_size = us := by
  simp only [add_v1, chunkDefault, BlobChunkInfoV1Ondisk.set_compressed_offset,
    BlobChunkInfoV1Ondisk.set_compressed_size, BlobChunkInfoV1Ondisk.set_uncompressed_offset,
    BlobChunkInfoV1Ondisk.set_uncompressed_size, BlobChunkInfoV1Ondisk.compressed_offset,
    BlobChunkInfoV1Ondisk.compressed_size, BlobChunkInfoV1Ondisk.uncompressed_offset,
    BlobChunkInfoV1Ondisk.uncompressed_size]
  obtain ⟨w, rfl⟩ : ∃ w, cs = w + 1 := ⟨cs - 1, by omega⟩
  obtain ⟨t, rfl⟩ : ∃ t, us = t + 1 := ⟨us - 1, by omega⟩
  have hvc : (w + 1 + (2 ^ 32 - 1)) % 2 ^ 32 = w := by omega
  have hvu : (t + 1 + (2 ^ 32 - 1)) % 2 ^ 32 = t := by omega
  rw [hvc, hvu]
  obtain ⟨wl, wh, hw1, hw2, hw3⟩ : ∃ wl wh, wl < 2 ^ 20 ∧ wh < 2 ^ 4 ∧ w = wl + wh * 2 ^ 20 :=
    ⟨w % 2 ^ 20, w / 2 ^ 20, by omega, by omega, by omega⟩
  obtain ⟨tl, th, ht1, ht2, ht3⟩ : ∃ tl th, tl < 2 ^ 20 ∧ th < 2 ^ 4 ∧ t = tl + th * 2 ^ 20 :=
    ⟨t % 2 ^ 20, t / 2 ^ 20, by omega, by omega, by omega⟩
  have hwh : w / 2 ^ 20 % 2 ^ 4 = wh := by omega
  have hwl : w % 2 ^ 20 = wl := by omega
  have hth : t / 2 ^ 20 % 2 ^ 4 = th := by omega
  have htl : t % 2 ^ 20 = tl := by omega
  rw [hwh, hwl, hth, htl]
  have e1 : (0 / 2 ^ 40 * 2 ^ 40 + co % 2 ^ 40) % 2 ^ 40 = co := by omega
  rw [e1]
  have f1 : (0 % 2 ^ 12 + 0 / 2 ^ 44 * 2 ^ 44 + uo / 2 ^ 12 % 2 ^ 32 * 2 ^ 12) = uo := by omega
  rw [f1]
  have f0 : uo % 2 ^ 8 = 0 := by omega
  have f2 : uo / 2 ^ 12 % 2 ^ 32 * 2 ^ 12 = uo := by omega
  rw [f0, f2]
  refine ⟨by omega, ?_, ?_, ?_⟩
  · have e2 : (co + wh * 2 ^ 40 + wl * 2 ^ 44) / 2 ^ 44 = wl := by omega
    have e3 : (co + wh * 2 ^ 40 + wl * 2 ^ 44) / 2 ^ 40 = wh + wl * 2 ^ 4 := by omega
    rw [e2, e3]
    have e4 : (wh + wl * 2 ^ 4) % 2 ^ 4 = wh := by omega
    rw [e4]
    omega
  · have f3 : (0 + uo + th * 2 ^ 8 + tl * 2 ^ 44) / 2 ^ 12 = uo / 2 ^ 12 + tl * 2 ^ 32 := by
      omega
    rw [f3]
    have f4 : (uo / 2 ^ 12 + tl * 2 ^ 32) % 2 ^ 32 = uo / 2 ^ 12 := by omega
    rw [f4]
    omega
  · have f5 : (0 + uo + th * 2 ^ 8 + tl * 2 ^ 44) / 2 ^ 44 = tl := by omega
    have f6 : (0 + uo + th * 2 ^ 8 + tl * 2 ^ 44) / 2 ^ 8 = th + uo / 2 ^ 8 + tl * 2 ^ 36 := by
      omega
    rw [f5, f6]
    have f7 : (th + uo / 2 ^ 8 + tl * 2 ^ 36) % 2 ^ 4 = th := by omega
    rw [f7]
    omega

/-- Counterexample to C3 as stated: the offset `2^44` is divisible by 4096
and below `2^52`, hence legal per the claim, but packing it loses it — the
stored offset field has only 32 bits (4 KiB units), so reading back yields
`0`. -/
theorem claim_C3_counterexample :
    2 ^ 44 % 4096 = 0 ∧ (2 ^ 44 : Nat) < 2 ^ 52 ∧
    (add_v1 0 1 (2 ^ 44) 1).uncompressed_offset = 0 := by
  exact ⟨by decide, by decide, by decide⟩

/-- Witness for C3: the amended round-trip at the boundary quadruple. -/
theorem claim_C3_witness :
    (add_v1 (2 ^ 40 - 4096) (2 ^ 24) (2 ^ 44 - 4096) (2 ^ 24)).compressed_offset
        = 2 ^ 40 - 4096 ∧
    (add_v1 (2 ^ 40 - 4096) (2 ^ 24) (2 ^ 44 - 4096) (2 ^ 24)).compressed_size = 2 ^ 24 ∧
    (add_v1 (2 ^ 40 - 4096) (2 ^ 24) (2 ^ 44 - 4096) (2 ^ 24)).uncompressed_offset
        = 2 ^ 44 - 4096 ∧
    (add_v1 (2 ^ 40 - 4096) (2 ^ 24) (2 ^ 44 - 4096) (2 ^ 24)).uncompressed_size = 2 ^ 24 :=
  claim_C3 (2 ^ 40 - 4096) (2 ^ 24) (2 ^ 44 - 4096) (2 ^ 24) (by decide) (by decide)
    (by decide) (by decide) (by decide) (by decide) (by decide)

/-- Counterexample to C4 as stated: for a stargz blob the compressed-variant
walk still enforces contiguity — on a stargz state with a compressed gap the
query fails with the contiguity error instead of having the check
disabled. -/
theorem claim_C4_counterexample :
    (compGapState true).is_stargz = true ∧
    ((compGapState true).chunks.getD 1 chunkDefault).compressed_offset ≠
      ((compGapState true).chunks.getD 0 chunkDefault).compressed_end ∧
    get_chunks_compressed (compGapState true) 0 0x1800 0 = .error "mismatch compressed" :=
  ⟨rfl, by decide, rfl⟩

/-- C4 (amended): in both range-to-chunks walks each successive chunk must
start at the previous chunk's `aligned_uncompressed_end()` (uncompressed
walk) or `compressed_end()` (compressed walk), and a gap is an error — the
stargz exemption exists only in the uncompressed walk; the compressed walk
rejects gaps even for stargz blobs.  Proven as: (1) the compressed walk
errors on any gap for any state, stargz or not; (2) the uncompressed walk
errors on a gap whenever the blob is not stargz; (3) on a stargz state with
an uncompressed gap the uncompressed query succeeds across the gap, while
the same state without stargz fails; (4) on a state with a compressed gap
the compressed query fails for both stargz values. -/
theorem claim_C4 :
    (∀ (s : BlobMetaState) (endv batch_end fuel index last_end : Nat) (vec : List Nat),
      index + 1 < s.chunks.length →
      validate_chunk s (s.chunks.getD (index + 1) chunkDefault) = .ok () →
      (s.chunks.getD (index + 1) chunkDefault).compressed_offset ≠ last_end →
      get_chunks_compressed_loop s endv batch_end (fuel + 1) index last_end vec =
        .error "mismatch compressed") ∧
    (∀ (s : BlobMetaState) (endv batch_end fuel index last_end : Nat) (vec : List Nat),
      s.is_stargz = false →
      index + 1 < s.chunks.length →
      validate_chunk s (s.chunks.getD (index + 1) chunkDefault) = .ok () →
      (s.chunks.getD (index + 1) chunkDefault).uncompressed_offset ≠ last_end →
      get_chunks_uncompressed_loop s endv batch_end (fuel + 1) index last_end vec =
        .error "mismatch uncompressed") ∧
    get_chunks_uncompressed (uncompGapState true) 0 0x2800 0 = .ok [0, 1] ∧
    exceptIsOk (get_chunks_uncompressed (uncompGapState false) 0 0x2800 0) = false ∧
    (∀ stargz : Bool, get_chunks_compressed (compGapState stargz) 0 0x1800 0 =
      .error "mismatch compressed") := by
  refine ⟨?_, ?_, rfl, by decide, ?_⟩
  · intro s endv batch_end fuel index last_end vec h1 hv hoff
    rw [get_chunks_compressed_loop, if_pos h1]
    simp only [hv]
    rw [if_pos hoff]
  · intro s endv batch_end fuel index last_end vec hst h1 hv hoff
    rw [get_chunks_uncompressed_loop, if_pos h1]
    simp only [hv]
    rw [if_pos ⟨hst, hoff⟩]
  · intro stargz
    cases stargz <;> rfl

/-- Witness for C4: the general gap clauses applied to the concrete gap
states at index 0. -/
theorem claim_C4_witness :
    get_chunks_compressed_loop (compGapState true) 0x1800 0x1800 2 0 0x1000 [0] =
      .error "mismatch compressed" ∧
    get_chunks_uncompressed_loop (uncompGapState false) 0x2800 0x2800 2 0 0x1000 [0] =
      .error "mismatch uncompressed" :=
  ⟨(claim_C4.1 (compGapState true) 0x1800 0x1800 1 0 0x1000 [0] (by decide) rfl (by decide)),
   (claim_C4.2.1 (uncompGapState false) 0x2800 0x2800 1 0 0x1000 [0] rfl (by decide) rfl
     (by decide))⟩

/-- The `add_more_chunks` walk returns its input extended by a consecutive
run of indices just past the start index, and every appended chunk starts
exactly at the previous chunk's compressed end. -/
theorem add_more_chunks_loop_spec (s : BlobMetaState) (batch_end : Nat) :
    ∀ (fuel index last_end : Nat) (vec : List Nat),
      last_end = (s.chunks.getD index chunkDefault).compressed_end →
      ∃ k, add_more_chunks_loop s batch_end fuel index last_end vec =
          vec ++ List.range' (index + 1) k ∧
        ∀ j, index < j → j < index + 1 + k →
          (s.chunks.getD j chunkDefault).compressed_offset =
            (s.chunks.getD (j - 1) chunkDefault).compressed_end := by
  intro fuel
  induction fuel with
  | zero =>
    intro index last_end vec _
    exact ⟨0, by simp [add_more_chunks_loop], by omega⟩
  | succ fuel ih =>
    intro index last_end vec hle
    rw [add_more_chunks_loop]
    by_cases hg : index + 1 < s.chunks.length
    · rw [if_pos hg]
      simp only []
      by_cases hbrk : exceptIsOk (validate_chunk s (s.chunks.getD (index + 1) chunkDefault))
          = false ∨ (s.chunks.getD (index + 1) chunkDefault).compressed_offset ≠ last_end
      · rw [if_pos hbrk]
        exact ⟨0, by simp, by omega⟩
      · rw [if_neg hbrk]
        push_neg at hbrk
        have hcontig : (s.chunks.getD (index + 1) chunkDefault).compressed_offset =
            (s.chunks.getD index chunkDefault).compressed_end := by
          rw [hbrk.2, hle]
        by_cases hbig : (s.chunks.getD (index + 1) chunkDefault).compressed_end > batch_end
        · rw [if_pos hbig]
          exact ⟨0, by simp, by omega⟩
        · rw [if_neg hbig]
          by_cases hstop : (s.chunks.getD (index + 1) chunkDefault).compressed_end ≥ batch_end
          · rw [if_pos hstop]
            refine ⟨1, by simp [List.range'], ?_⟩
            intro j hj1 hj2
            have : j = index + 1 := by omega
            subst this
            simpa using hcontig
          · rw [if_neg hstop]
            obtain ⟨k, hk1, hk2⟩ := ih (index + 1)
              (s.chunks.getD (index + 1) chunkDefault).compressed_end (vec ++ [index + 1]) rfl
            refine ⟨k + 1, ?_, ?_⟩
            · rw [hk1, List.range'_succ]
              simp
            · intro j hj1 hj2
              by_cases hje : j = index + 1
              · subst hje
                simpa using hcontig
              · exact hk2 j (by omega) (by omega)
    · rw [if_neg hg]
      exact ⟨0, by simp, by omega⟩

/-- C5 (amended): for every non-empty chunk list `tail`,
`add_more_chunks(tail, max)` walks forward from the last chunk of `tail`
appending contiguous chunks (each starting at the previous chunk's
`compressed_end()`) until the amplified budget or a gap/overflow stops it,
and returns the extended list — possibly equal to `tail` when the walk is
stopped immediately; it returns `None` exactly when the last chunk of
`tail` fails validation, or its compressed end exceeds the blob's
compressed size, or no amplification budget remains (`batch_end ≤ end`). -/
theorem claim_C5 (s : BlobMetaState) (tail : List Nat) (max_size : Nat) (_h : tail ≠ []) :
    (add_more_chunks s tail max_size = none ↔
      (exceptIsOk (validate_chunk s (s.chunks.getD (tail.getLastD 0) chunkDefault)) = false ∨
        (s.chunks.getD (tail.getLastD 0) chunkDefault).compressed_end > s.compressed_size ∨
        min (if (s.chunks.getD (tail.getLastD 0) chunkDefault).compressed_end + max_size > u64Max
              then (s.chunks.getD (tail.getLastD 0) chunkDefault).compressed_end
              else (s.chunks.getD (tail.getLastD 0) chunkDefault).compressed_end + max_size)
            s.compressed_size
          ≤ (s.chunks.getD (tail.getLastD 0) chunkDefault).compressed_end)) ∧
    (∀ l, add_more_chunks s tail max_size = some l →
      ∃ k, l = tail ++ List.range' (tail.getLastD 0 + 1) k ∧
        ∀ j, tail.getLastD 0 < j → j < tail.getLastD 0 + 1 + k →
          (s.chunks.getD j chunkDefault).compressed_offset =
            (s.chunks.getD (j - 1) chunkDefault).compressed_end) := by
  rw [add_more_chunks]
  simp only []
  by_cases h1 : exceptIsOk (validate_chunk s (s.chunks.getD (tail.getLastD 0) chunkDefault))
      = false
  · rw [if_pos h1]
    constructor
    · constructor
      · intro _; exact Or.inl h1
      · intro _; rfl
    · intro l hl; cases hl
  · rw [if_neg h1]
    by_cases h2 : (s.chunks.getD (tail.getLastD 0) chunkDefault).compressed_end >
        s.compressed_size
    · rw [if_pos h2]
      constructor
      · constructor
        · intro _; exact Or.inr (Or.inl h2)
        · intro _; rfl
      · intro l hl; cases hl
    · rw [if_neg h2]
      by_cases h3 : min (if (s.chunks.getD (tail.getLastD 0) chunkDefault).compressed_end
            + max_size > u64Max
            then (s.chunks.getD (tail.getLastD 0) chunkDefault).compressed_end
            else (s.chunks.getD (tail.getLastD 0) chunkDefault).compressed_end + max_size)
          s.compressed_size ≤ (s.chunks.getD (tail.getLastD 0) chunkDefault).compressed_end
      · rw [if_pos h3]
        constructor
        · constructor
          · intro _; exact Or.inr (Or.inr h3)
          · intro _; rfl
        · intro l hl; cases hl
      · rw [if_neg h3]
        constructor
        · constructor
          · intro hsome; cases hsome
          · intro hcond
            rcases hcond with hc | hc | hc
            · exact absurd hc h1
            · exact absurd hc h2
            · exact absurd hc h3
        · intro l hl
          obtain ⟨k, hk1, hk2⟩ := add_more_chunks_loop_spec s
            (min (if (s.chunks.getD (tail.getLastD 0) chunkDefault).compressed_end + max_size
                  > u64Max
                then (s.chunks.getD (tail.getLastD 0) chunkDefault).compressed_end
                else (s.chunks.getD (tail.getLastD 0) chunkDefault).compressed_end + max_size)
              s.compressed_size)
            s.chunks.length (tail.getLastD 0)
            (s.chunks.getD (tail.getLastD 0) chunkDefault).compressed_end tail rfl
          refine ⟨k, ?_, hk2⟩
          have : l = add_more_chunks_loop s
              (min (if (s.chunks.getD (tail.getLastD 0) chunkDefault).compressed_end + max_size
                    > u64Max
                  then (s.chunks.getD (tail.getLastD 0) chunkDefault).compressed_end
                  else (s.chunks.getD (tail.getLastD 0) chunkDefault).compressed_end + max_size)
                s.compressed_size)
              s.chunks.length (tail.getLastD 0)
              (s.chunks.getD (tail.getLastD 0) chunkDefault).compressed_end tail := by
            cases hl; rfl
          rw [this, hk1]

/-- Counterexample to C5 as stated: on a state whose chunk 1 leaves a
compressed gap after chunk 0, no chunk can be appended to the tail `[0]`
(extension is impossible), yet `add_more_chunks` returns `Some([0])`, not
`None`. -/
theorem claim_C5_counterexample :
    ((compGapState false).chunks.getD 1 chunkDefault).compressed_offset ≠
      ((compGapState false).chunks.getD 0 chunkDefault).compressed_end ∧
    add_more_chunks (compGapState false) [0] 0x1000 = some [0] :=
  ⟨by decide, rfl⟩

/-- Witness for C5: the amended theorem applied to a contiguous two-chunk
state, where the walk extends `[0]` by the contiguous chunk 1. -/
theorem claim_C5_witness :
    add_more_chunks contigTwoState [0] 0x1000 = some [0, 1] ∧
    (∃ k, ([0, 1] : List Nat) = [0] ++ List.range' (0 + 1) k ∧
      ∀ j, 0 < j → j < 0 + 1 + k →
        (contigTwoState.chunks.getD j chunkDefault).compressed_offset =
          (contigTwoState.chunks.getD (j - 1) chunkDefault).compressed_end) :=
  ⟨rfl, (claim_C5 contigTwoState [0] 0x1000 (by decide)).2 [0, 1] rfl⟩

/-- C6: when the chunker finds the slice's digest in the chunk cache and the
cached record's `decompress_size` equals the slice size or is zero (a "hole"
entry), it reuses the cached record with only `file_offset` patched and
pushes it onto the node's chunk list, writing no bytes to the blob: the
compress and decompress cursors, the running blob hash, the blob bytes, the
accumulated blob size and the chunk cache are all unchanged by that chunk
(only the inode hasher additionally absorbs the chunk digest, as for every
chunk). -/
theorem claim_C6 (file : List Nat) (file_size child_count blob_index : Nat)
    (digester : List Nat → Nat) (compressor : List Nat → List Nat × Bool)
    (i : Nat) (st : DumpState) (cached_chunk : OndiskChunkInfo)
    (hread : ¬(file.length < i * RAFS_DEFAULT_BLOCK_SIZE + node_chunk_size file_size child_count i))
    (hhit : cacheGet st.chunk_cache
      (digester ((file.drop (i * RAFS_DEFAULT_BLOCK_SIZE)).take
        (node_chunk_size file_size child_count i))) = some cached_chunk)
    (hsz : cached_chunk.decompress_size = 0 ∨
      cached_chunk.decompress_size = node_chunk_size file_size child_count i) :
    ∃ st', dump_blob_chunk file file_size child_count blob_index digester compressor i st =
        .ok st' ∧
      st'.chunks = st.chunks ++
        [{ cached_chunk with file_offset := i * RAFS_DEFAULT_BLOCK_SIZE }] ∧
      st'.compress_offset = st.compress_offset ∧
      st'.decompress_offset = st.decompress_offset ∧
      st'.blob_hash = st.blob_hash ∧
      st'.blob = st.blob ∧
      st'.blob_size = st.blob_size ∧
      st'.chunk_cache = st.chunk_cache ∧
      st'.inode_hash = st.inode_hash ++
        [digester ((file.drop (i * RAFS_DEFAULT_BLOCK_SIZE)).take
          (node_chunk_size file_size child_count i))] := by
  rw [dump_blob_chunk, if_neg hread]
  dsimp only []
  rw [hhit]
  dsimp only []
  rw [if_pos hsz]
  exact ⟨_, rfl, rfl, rfl, rfl, rfl, rfl, rfl, rfl, rfl⟩

/-- Witness for C6: the theorem applied to a concrete 4-byte file whose
single chunk digest is already cached. -/
theorem claim_C6_witness :
    ∃ st', dump_blob_chunk [1, 2, 3, 4] 4 1 0 (fun _ => 7) (fun l => (l, false)) 0 c6State =
        .ok st' ∧
      st'.chunks = c6State.chunks ++ [{ c6CachedChunk with file_offset := 0 }] ∧
      st'.compress_offset = c6State.compress_offset ∧
      st'.decompress_offset = c6State.decompress_offset ∧
      st'.blob_hash = c6State.blob_hash ∧
      st'.blob = c6State.blob ∧
      st'.blob_size = c6State.blob_size ∧
      st'.chunk_cache = c6State.chunk_cache ∧
      st'.inode_hash = c6State.inode_hash ++ [7] :=
  claim_C6 [1, 2, 3, 4] 4 1 0 (fun _ => 7) (fun l => (l, false)) 0 c6State c6CachedChunk
    (by decide) (by decide) (by decide)

/-- Every loop iteration of `dump_blob` appends exactly one chunk record. -/
theorem dump_blob_chunk_length (file : List Nat) (file_size child_count blob_index : Nat)
    (digester : List Nat → Nat) (compressor : List Nat → List Nat × Bool)
    (i : Nat) (st st' : DumpState)
    (h : dump_blob_chunk file file_size child_count blob_index digester compressor i st =
      .ok st') :
    st'.chunks.length = st.chunks.length + 1 := by
  rw [dump_blob_chunk] at h
  split at h
  · exact absurd h (by simp)
  · dsimp only [] at h
    split at h
    · split at h
      · cases h
        simp
      · cases h
        simp [dump_blob_chunk_compress]
    · cases h
      simp [dump_blob_chunk_compress]

/-- The `dump_blob` loop appends exactly one chunk record per iteration. -/
theorem dump_blob_iter_length (file : List Nat) (file_size child_count blob_index : Nat)
    (digester : List Nat → Nat) (compressor : List Nat → List Nat × Bool) :
    ∀ (remaining i : Nat) (st st' : DumpState),
      dump_blob_iter file file_size child_count blob_index digester compressor remaining i st =
        .ok st' →
      st'.chunks.length = st.chunks.length + remaining := by
  intro remaining
  induction remaining with
  | zero =>
    intro i st st' h
    cases h
    simp
  | succ remaining ih =>
    intro i st st' h
    rw [dump_blob_iter] at h
    cases hstep : dump_blob_chunk file file_size child_count blob_index digester compressor i st
      with
    | error e => rw [hstep] at h; cases h
    | ok st1 =>
      rw [hstep] at h
      have h1 := dump_blob_chunk_length file file_size child_count blob_index digester
        compressor i st st1 hstep
      have h2 := ih (i + 1) st1 st' h
      omega

/-- C7: for a regular file whose `i_child_count` was set by `build_inode`
(i.e. to `Node::chunk_count`), a successful `dump_blob` leaves exactly
`ceil(i_size / RAFS_DEFAULT_BLOCK_SIZE)` chunk records in the node's chunk
list; a zero-length file gets zero records and `i_child_count = 0`; and the
`dump_bootstrap` chunk-count guard accepts the result. -/
theorem claim_C7 (node : Node) (file : List Nat) (blob_index : Nat)
    (digester : List Nat → Nat) (compressor : List Nat → List Nat × Bool)
    (st st' : DumpState) (sz : Nat)
    (hreg : node.is_reg = true)
    (hcc : node.i_child_count = node.chunk_count)
    (hempty : st.chunks = [])
    (hok : dump_blob node file blob_index digester compressor st = .ok (st', sz)) :
    st'.chunks.length = div_round_up node.i_size RAFS_DEFAULT_BLOCK_SIZE ∧
    (node.i_size = 0 → st'.chunks.length = 0 ∧ node.i_child_count = 0) ∧
    dump_bootstrap_chunk_guard node st'.chunks = .ok () := by
  have hfmt : node.mode_fmt = 0o100000 := by
    simpa [Node.is_reg] using hreg
  have hdir : node.is_dir = false := by
    simp [Node.is_dir, hfmt]
  have hsym : node.is_symlink = false := by
    simp [Node.is_symlink, hfmt]
  rw [dump_blob, hdir, hsym] at hok
  simp only [Bool.false_eq_true, if_false] at hok
  cases hiter : dump_blob_iter file node.i_size node.i_child_count blob_index digester
      compressor node.i_child_count 0 st with
  | error e => rw [hiter] at hok; cases hok
  | ok st1 =>
    rw [hiter] at hok
    cases hok
    have hlen := dump_blob_iter_length file node.i_size node.i_child_count blob_index digester
      compressor node.i_child_count 0 st st' hiter
    rw [hempty] at hlen
    simp only [List.length_nil, Nat.zero_add] at hlen
    have hcount : node.chunk_count = div_round_up node.i_size RAFS_DEFAULT_BLOCK_SIZE := by
      simp [Node.chunk_count, hreg]
    refine ⟨by omega, ?_, ?_⟩
    · intro hzero
      have : div_round_up 0 RAFS_DEFAULT_BLOCK_SIZE = 0 := by
        simp [div_round_up, RAFS_DEFAULT_BLOCK_SIZE]
      rw [hzero] at hcount
      constructor
      · omega
      · omega
    · rw [dump_bootstrap_chunk_guard, if_neg]
      intro hcontra
      exact hcontra.2 (by omega)

/-- Witness for C7: the theorem applied to a concrete 5-byte regular file. -/
theorem claim_C7_witness :
    c7Final.chunks.length = div_round_up c7Node.i_size RAFS_DEFAULT_BLOCK_SIZE ∧
    (c7Node.i_size = 0 → c7Final.chunks.length = 0 ∧ c7Node.i_child_count = 0) ∧
    dump_bootstrap_chunk_guard c7Node c7Final.chunks = .ok () :=
  claim_C7 c7Node [1, 2, 3, 4, 5] 0 (fun _ => 3) (fun l => (l, true)) emptyDumpState c7Final 5
    (by decide) (by decide) rfl rfl

theorem fsLookup_filter_ne (fs : FS) (t p : String) (h : p ≠ t) :
    fsLookup (List.filter (fun q => q.1 ≠ t) fs) p = fsLookup fs p := by
  induction fs with
  | nil => rfl
  | cons hd tl ih =>
    obtain ⟨k, v⟩ := hd
    simp only [fsLookup] at ih ⊢
    have hne' : (p == t) = false := beq_eq_false_iff_ne.mpr h
    by_cases hkt : k = t
    · subst hkt
      have hdrop : (decide ((k, v).1 ≠ k)) = false := by simp
      rw [List.filter_cons, hdrop]
      simp only [Bool.false_eq_true, if_false]
      rw [ih]
      simp [List.lookup, hne']
    · have hkeep : (decide ((k, v).1 ≠ t)) = true := by simp [hkt]
      rw [List.filter_cons, hkeep]
      simp only [if_true]
      by_cases hpk : (p == k) = true
      · simp [List.lookup, hpk]
      · have hpk' : (p == k) = false := by
          cases hb : (p == k)
          · rfl
          · exact absurd hb hpk
        simp only [List.lookup, hpk']
        simpa using ih

theorem fsLookup_filter_none (fs : FS) (pred : String × List Nat → Bool) (p : String)
    (h : ∀ e, pred e = true → e.1 ≠ p) :
    fsLookup (List.filter pred fs) p = none := by
  induction fs with
  | nil => rfl
  | cons hd tl ih =>
    rw [List.filter_cons]
    by_cases hp : pred hd = true
    · rw [if_pos hp]
      obtain ⟨k, v⟩ := hd
      have : (p == k) = false := by
        rw [beq_eq_false_iff_ne]
        intro hc
        exact h (k, v) hp (by simp [hc])
      simp only [fsLookup, List.lookup, this]
      exact ih
    · have : pred hd = false := by
        cases hb : pred hd
        · rfl
        · exact absurd hb hp
      rw [this]
      simp only [Bool.false_eq_true, if_false]
      exact ih

/-- C8: `BlobBufferWriter::release` in `BlobsDir` mode with `Some(name)`
first removes `dir/name` when a file with that name exists and then renames
the temp file onto `dir/name`, so finalizing a second build to the same
name overwrites the first artifact instead of failing; in
`SingleFile(path)` mode, `release(None)` removes the file at `path`. -/
theorem claim_C8 :
    (∀ (dir n tmp : String) (content : List Nat) (fs : FS) (w : BlobBufferWriter),
      w.blob_stor = BlobStorage.BlobsDir dir →
      w.tmp_file = some tmp →
      fsLookup fs tmp = some content →
      tmp ≠ pathJoin dir n →
      ∃ fs', w.release (some n) fs = .ok fs' ∧
        fsLookup fs' (pathJoin dir n) = some content ∧
        fsLookup fs' tmp = none) ∧
    (∀ (p : String) (fs : FS) (w : BlobBufferWriter),
      w.blob_stor = BlobStorage.SingleFile p →
      fsExists fs p = true →
      ∃ fs', w.release none fs = .ok fs' ∧ fsLookup fs' p = none) := by
  constructor
  · intro dir n tmp content fs w hw htmp hcontent hne
    rw [BlobBufferWriter.release, hw]
    simp only [htmp, Option.getD]
    by_cases hex : fsExists fs (pathJoin dir n) = true
    · rw [if_pos hex]
      rw [remove_file, if_pos hex]
      simp only []
      have hlk : fsLookup (List.filter (fun q => q.1 ≠ pathJoin dir n) fs) tmp = some content := by
        rw [fsLookup_filter_ne fs (pathJoin dir n) tmp hne, hcontent]
      rw [rename, hlk]
      refine ⟨_, rfl, ?_, ?_⟩
      · simp [fsLookup, List.lookup]
      · have h1 : (tmp == pathJoin dir n) = false := beq_eq_false_iff_ne.mpr hne
        simp only [fsLookup, List.lookup, h1]
        have := fsLookup_filter_none
          (List.filter (fun q => q.1 ≠ pathJoin dir n) fs)
          (fun q => decide (q.1 ≠ tmp ∧ q.1 ≠ pathJoin dir n)) tmp
          (by
            intro e he
            simp at he
            exact he.1)
        simpa [fsLookup] using this
    · rw [if_neg hex]
      simp only []
      rw [rename, hcontent]
      refine ⟨_, rfl, ?_, ?_⟩
      · simp [fsLookup, List.lookup]
      · have h1 : (tmp == pathJoin dir n) = false := beq_eq_false_iff_ne.mpr hne
        simp only [fsLookup, List.lookup, h1]
        have := fsLookup_filter_none fs
          (fun q => decide (q.1 ≠ tmp ∧ q.1 ≠ pathJoin dir n)) tmp
          (by
            intro e he
            simp at he
            exact he.1)
        simpa [fsLookup] using this
  · intro p fs w hw hex
    rw [BlobBufferWriter.release, hw]
    simp only []
    rw [remove_file, if_pos hex]
    refine ⟨_, rfl, ?_⟩
    exact fsLookup_filter_none fs (fun q => decide (q.1 ≠ p)) p
      (by
        intro e he
        simpa using he)

/-- Witness for C8: both clauses at concrete directories — a rebuild whose
target `d/x` already exists succeeds and overwrites it with the temp file's
bytes, and a `SingleFile` release with no name removes the file. -/
theorem claim_C8_witness :
    (∃ fs', BlobBufferWriter.release ⟨BlobStorage.BlobsDir "d", some "t"⟩ (some "x")
        [("d/x", [1]), ("t", [2])] = .ok fs' ∧
      fsLookup fs' (pathJoin "d" "x") = some [2] ∧ fsLookup fs' "t" = none) ∧
    (∃ fs', BlobBufferWriter.release ⟨BlobStorage.SingleFile "s", none⟩ none [("s", [3])] =
        .ok fs' ∧ fsLookup fs' "s" = none) :=
  ⟨claim_C8.1 "d" "x" "t" [2] [("d/x", [1]), ("t", [2])] ⟨BlobStorage.BlobsDir "d", some "t"⟩
      rfl rfl (by decide) (by decide),
    claim_C8.2 "s" [("s", [3])] ⟨BlobStorage.SingleFile "s", none⟩ rfl (by decide)⟩

/-- C9: `BlobMetaInfo::new` fails before performing any file operation when
the blob info's chunk count is zero or exceeds `RAFS_MAX_CHUNKS_PER_BLOB`,
and fails before mapping the file when the declared uncompressed metadata
size is not `chunk_count * 16` or its 4 KiB-rounded value exceeds the V1
maximum metadata size. -/
theorem claim_C9 (info : BlobInfoView) (enable_write open_ok : Bool) (file_size : Nat) :
    (info.chunk_count = 0 ∨ info.chunk_count > RAFS_MAX_CHUNKS_PER_BLOB →
      exceptIsOk (blob_meta_info_new info enable_write open_ok file_size).1 = false ∧
      (blob_meta_info_new info enable_write open_ok file_size).2 = []) ∧
    (info.chunk_count ≠ 0 → info.chunk_count ≤ RAFS_MAX_CHUNKS_PER_BLOB →
      (info.meta_ci_uncompressed_size ≠ info.chunk_count * 16 ∨
        round_up_4k info.meta_ci_uncompressed_size > BLOB_METADATA_V1_MAX_SIZE) →
      exceptIsOk (blob_meta_info_new info enable_write open_ok file_size).1 = false ∧
      MetaFileOp.mapFile ∉ (blob_meta_info_new info enable_write open_ok file_size).2) := by
  constructor
  · intro h
    rw [blob_meta_info_new, if_pos h]
    exact ⟨rfl, rfl⟩
  · intro h1 h2 h3
    rw [blob_meta_info_new, if_neg (by omega)]
    simp only []
    by_cases hopen : open_ok = false
    · rw [if_pos hopen]
      exact ⟨rfl, by simp⟩
    · rw [if_neg hopen]
      rw [if_pos h3]
      exact ⟨rfl, by simp⟩

/-- Witness for C9: a zero-chunk blob info fails with an empty operation
trace, and a chunk-count/size mismatch fails without a mapping operation. -/
theorem claim_C9_witness :
    (exceptIsOk (blob_meta_info_new ⟨0, 0⟩ true true 0).1 = false ∧
      (blob_meta_info_new ⟨0, 0⟩ true true 0).2 = []) ∧
    (exceptIsOk (blob_meta_info_new ⟨1, 15⟩ true true 0).1 = false ∧
      MetaFileOp.mapFile ∉ (blob_meta_info_new ⟨1, 15⟩ true true 0).2) :=
  ⟨(claim_C9 ⟨0, 0⟩ true true 0).1 (Or.inl rfl),
    (claim_C9 ⟨1, 15⟩ true true 0).2 (by decide) (by decide) (Or.inl (by decide))⟩

/-- C10: a node whose overlay state is `Lower` is never classified as a
whiteout: `whiteout_type` returns `None` under both the OCI and the
Overlayfs spec, regardless of the node's name, mode, device numbers or
xattrs. -/
theorem claim_C10 (n : Node) (spec : WhiteoutSpec) (h : n.overlay = Overlay.Lower) :
    n.whiteout_type spec = none := by
  rw [Node.whiteout_type.eq_def, if_pos h]

/-- Witness for C10: the theorem applied to a lower node that matches every
whiteout pattern, under both specs. -/
theorem claim_C10_witness :
    Node.whiteout_type lowerWhiteoutLikeNode WhiteoutSpec.Oci = none ∧
    Node.whiteout_type lowerWhiteoutLikeNode WhiteoutSpec.Overlayfs = none ∧
    lowerWhiteoutLikeNode.name = ".wh.foo" ∧
    lowerWhiteoutLikeNode.is_chr = true ∧
    dev_major lowerWhiteoutLikeNode.rdev = 0 ∧
    dev_minor lowerWhiteoutLikeNode.rdev = 0 ∧
    lowerWhiteoutLikeNode.xattrs.lookup "trusted.overlay.opaque" = some "y" :=
  ⟨claim_C10 lowerWhiteoutLikeNode WhiteoutSpec.Oci rfl,
    claim_C10 lowerWhiteoutLikeNode WhiteoutSpec.Overlayfs rfl,
    by decide, by decide, by decide, by decide, by decide⟩
